import Mathlib

/-!
Shallow embedding of the `Dataclass` derive macro in `src/lib.rs` of the
`dataclasses` crate, together with theorems about the behaviour of the
directive parser, the field model and the generated operations.

The embedding mirrors `impl_dataclass`: the input `DeriveInput` is modelled
structurally (name, generics, where-clause, data shape), per-field attribute
token text is kept as the string produced by `MetaList.tokens.to_string()`,
and the splitter / directive parser are translated character by character.
The external expression parser (`syn::parse_str::<syn::Expr>`) is an opaque
parameter `P`; on success the stored default expression is the parsed text
itself (the code re-quotes the parsed expression's tokens).
-/

namespace Dataclasses

/-- Characters of a string literal; directive text is processed as `List Char`,
mirroring the byte-wise `char_indices` loop of the Rust code. -/
def chars (s : String) : List Char := s.data

/-- A `syn::Error`: a source span (modelled as the identifier of the item the
error points at, via `field.span()` / `new_spanned(&input.ident, ..)`) and a
message. -/
structure SynErr where
  span : String
  msg : String
deriving DecidableEq

/-- The payload of `syn::Meta` that the macro inspects: `Meta::List` carries
`tokens.to_string()`; `Meta::Path` / `Meta::NameValue` are not inspected. -/
inductive AttrMeta where
  | list : String → AttrMeta
  | other : AttrMeta
deriving DecidableEq

/-- One attribute on a field: its path (checked by `is_ident("dataclass")`)
and its meta payload. -/
structure Attr where
  path : String
  meta : AttrMeta
deriving DecidableEq

/-- One named field of the input struct: identifier, type tokens, attributes. -/
structure Field where
  ident : String
  ty : String
  attrs : List Attr
deriving DecidableEq

/-- A generic parameter of the input (`syn::GenericParam`); only type
parameters contribute to `type_idents`. -/
inductive GenericParam where
  | typeParam : String → GenericParam
  | lifetimeParam : String → GenericParam
  | constParam : String → GenericParam
deriving DecidableEq

/-- The field shape of a struct (`syn::Fields`). -/
inductive StructFields where
  | named : List Field → StructFields
  | unnamed : StructFields
  | unit : StructFields
deriving DecidableEq

/-- The data shape of the input (`syn::Data`). -/
inductive Data where
  | structData : StructFields → Data
  | enumData : Data
  | unionData : Data
deriving DecidableEq

/-- The parsed derive input handed to `impl_dataclass`. -/
structure DeriveInput where
  ident : String
  generics : List GenericParam
  whereClause : Option String
  data : Data
deriving DecidableEq

/-- The per-field record collected by the first loop of `impl_dataclass`
(the local `struct FieldInfo`): identifier, type, optional default tokens. -/
structure FieldInfo where
  ident : String
  ty : String
  default : Option (List Char)
deriving DecidableEq

/-- ASCII whitespace, as trimmed by `str::trim` on directive token text. -/
def isWsp (c : Char) : Bool := c == ' ' || c == '\t' || c == '\n' || c == '\r'

/-- `str::trim` on a character list. -/
def trimChars (l : List Char) : List Char :=
  ((l.dropWhile isWsp).reverse.dropWhile isWsp).reverse

/-- `trim_start_matches('(')` followed by `trim_end_matches(')')`. -/
def stripParens (l : List Char) : List Char :=
  ((l.dropWhile (· == '(')).reverse.dropWhile (· == ')')).reverse

/-- The comma splitter of `impl_dataclass`: walk the characters, toggle
`in_quotes` on `'"'`, split on `','` only outside quotes, trim each part;
the final part is pushed only when nonempty (`start < inside.len()`). -/
def splitRaw : List Char → Bool → List Char → List (List Char)
  | [], _, cur => if cur = [] then [] else [trimChars cur]
  | c :: cs, inQ, cur =>
    if c = '"' then splitRaw cs (!inQ) (cur ++ [c])
    else if c = ',' ∧ inQ = false then trimChars cur :: splitRaw cs inQ []
    else splitRaw cs inQ (cur ++ [c])

/-- Split a directive list on commas outside double quotes. -/
def splitDirectives (cs : List Char) : List (List Char) := splitRaw cs false []

/-- The token stream of the bare-`default` branch:
`quote! { ::core::default::Default::default() }`. -/
def bareDefaultExpr : List Char := chars "::core::default::Default::default()"

/-- The characters after the first `'='` (`part.find('=')` and slicing),
`none` when there is no `'='`. -/
def afterFirstEq : List Char → Option (List Char)
  | [] => none
  | c :: cs => if c = '=' then some cs else afterFirstEq cs

/-- Process one comma-separated directive part, as in the
`for part in parts` loop: bare `default` stores the zero-value expression;
`default=`/`default =` parses the (quote-stripped) right-hand side with the
external expression parser `P` and stores its text; anything else is the
error `unknown dataclass attribute` at the field's span. -/
def applyPart (P : List Char → Except String Unit) (fld : String)
    (cur : Option (List Char)) (part : List Char) : Except SynErr (Option (List Char)) :=
  if part = chars "default" then
    .ok (some bareDefaultExpr)
  else if (chars "default=").isPrefixOf part || (chars "default =").isPrefixOf part then
    match afterFirstEq part with
    | some tail =>
      let rhs := trimChars tail
      let rhs := if rhs.head? = some '"' ∧ rhs.getLast? = some '"'
        then (rhs.drop 1).dropLast else rhs
      match P rhs with
      | .ok _ => .ok (some rhs)
      | .error e => .error ⟨fld, "invalid default expression: " ++ e⟩
    | none => .ok cur
  else
    .error ⟨fld, "unknown dataclass attribute"⟩

/-- The nonempty trimmed parts of one attribute's token text:
`tokens.trim()`, paren stripping, quote-aware comma split, empties filtered. -/
def partsOfTokens (tokens : String) : List (List Char) :=
  (splitDirectives (stripParens (trimChars (chars tokens)))).filter (fun p => !p.isEmpty)

/-- Fold `applyPart` over the parts of one directive list. -/
def processParts (P : List Char → Except String Unit) (fld : String)
    (cur : Option (List Char)) (parts : List (List Char)) : Except SynErr (Option (List Char)) :=
  parts.foldlM (applyPart P fld) cur

/-- Process one attribute: only `#[dataclass(...)]` list attributes are
inspected; every other attribute leaves the collected default unchanged. -/
def applyAttr (P : List Char → Except String Unit) (fld : String)
    (cur : Option (List Char)) (a : Attr) : Except SynErr (Option (List Char)) :=
  if a.path = "dataclass" then
    match a.meta with
    | .list tokens => processParts P fld cur (partsOfTokens tokens)
    | .other => .ok cur
  else .ok cur

/-- The default collected for one field over all of its attributes. -/
def collectDefault (P : List Char → Except String Unit) (f : Field) :
    Except SynErr (Option (List Char)) :=
  f.attrs.foldlM (applyAttr P f.ident) none

/-- The `FieldInfo` collected for one field. -/
def collectInfo (P : List Char → Except String Unit) (f : Field) :
    Except SynErr FieldInfo :=
  (collectDefault P f).map (fun d => ⟨f.ident, f.ty, d⟩)

/-- The `FieldInfo` list collected for all fields (the first `for field in
fields` loop pushing into `infos`; `?` aborts on the first error). -/
def collectInfos (P : List Char → Except String Unit) :
    List Field → Except SynErr (List FieldInfo)
  | [] => .ok []
  | f :: fs => do
    let i ← collectInfo P f
    let is ← collectInfos P fs
    pure (i :: is)

/-- The where-clause attached to a generated `impl`: either the input's own
where-clause (possibly absent) or the capability clause
`where T1: Clone + std::fmt::Debug + PartialEq + Eq + Default, ...` built
over the listed type parameters. -/
inductive Bounds where
  | fromWhere : Option String → Bounds
  | capabilities : List String → Bounds
deriving DecidableEq

/-- The identifiers of the input's type parameters (`type_idents`). -/
def typeIdentsOf (input : DeriveInput) : List String :=
  input.generics.filterMap (fun p => match p with
    | .typeParam t => some t
    | _ => none)

/-- One step of the `for info in &infos` loop building the `new` function:
a field without a default contributes a positional parameter and a shorthand
construct field and clears `all_have_default`; a field with a default
contributes an in-body construct field. -/
def newStep (acc : List (String × String) × List (String × Option (List Char)) × Bool)
    (info : FieldInfo) : List (String × String) × List (String × Option (List Char)) × Bool :=
  match info.default with
  | none => (acc.1 ++ [(info.ident, info.ty)], acc.2.1 ++ [(info.ident, none)], false)
  | some e => (acc.1, acc.2.1 ++ [(info.ident, some e)], acc.2.2)

/-- The full set of generated definitions: the inherent `new` impl, the
`Clone`, `Debug`, `PartialEq`, `Eq` impls (each with its where-clause and the
shared field identifier list) and the conditional `Default` impl. -/
structure Generated where
  name : String
  newBounds : Bounds
  newParams : List (String × String)
  constructFields : List (String × Option (List Char))
  fieldIdents : List String
  cloneBounds : Bounds
  debugBounds : Bounds
  peqBounds : Bounds
  eqBounds : Bounds
  defaultBounds : Bounds
  defaultAssigns : Option (List (String × List Char))
deriving DecidableEq

/-- Synthesis of all generated definitions from the collected field infos,
mirroring the second half of `impl_dataclass`: the `new` impl keeps the
input's where-clause; when there is at least one type parameter the five
trait impls all reuse the single capability clause; `Default` is emitted
only when every field has a default (the guarded `unwrap` is modelled by
`getD []`, which is never reached with `[]` under the guard). -/
def buildGenerated (input : DeriveInput) (infos : List FieldInfo) : Generated :=
  let acc := infos.foldl newStep ([], [], true)
  let typeIdents := typeIdentsOf input
  let capB := if typeIdents = [] then Bounds.fromWhere input.whereClause
    else Bounds.capabilities typeIdents
  { name := input.ident
    newBounds := Bounds.fromWhere input.whereClause
    newParams := acc.1
    constructFields := acc.2.1
    fieldIdents := infos.map (fun i => i.ident)
    cloneBounds := capB
    debugBounds := capB
    peqBounds := capB
    eqBounds := capB
    defaultBounds := capB
    defaultAssigns := if acc.2.2
      then some (infos.map (fun i => (i.ident, i.default.getD [])))
      else none }

/-- The whole of `impl_dataclass`: reject non-structs and structs without
named fields outright, otherwise collect the field infos (aborting on the
first parse error) and synthesize every generated definition. -/
def impl_dataclass (P : List Char → Except String Unit) (input : DeriveInput) :
    Except SynErr Generated :=
  match input.data with
  | .structData (.named fs) =>
    (collectInfos P fs).map (fun infos => buildGenerated input infos)
  | .structData _ =>
    .error ⟨input.ident, "Dataclass macro only supports structs with named fields"⟩
  | _ => .error ⟨input.ident, "Dataclass macro requires a struct"⟩

/-! ## Semantics of the generated operations

Instances of a generated type are modelled as association lists
`List (String × V)` in declaration order, `V` being an abstract value type;
field-type operations (`clone`, `==`, evaluation of a default expression)
are abstract parameters, since they come from the host language. -/

/-- Run the generated `new` function on positional arguments: the construct
list pairs every field with `none` (take the next positional parameter — the
parameters are exactly the defaultless fields, in order) or `some e`
(evaluate the default expression in the body). `none` on an argument-count
mismatch. -/
def runNew {V : Type} (eval : List Char → V) :
    List (String × Option (List Char)) → List V → Option (List (String × V))
  | [], [] => some []
  | [], _ :: _ => none
  | (id, some e) :: rest, args =>
    (runNew eval rest args).map (fun r => (id, eval e) :: r)
  | (_, none) :: _, [] => none
  | (id, none) :: rest, a :: args =>
    (runNew eval rest args).map (fun r => (id, a) :: r)

/-- Spec-side description of the constructed instance, following the spec's
words: the constructor takes one positional argument per field lacking a
default, in declaration order, and every resulting field value equals the
supplied value, defaulted fields equalling their evaluated default. -/
def specNewInstance {V : Type} (eval : List Char → V) :
    List FieldInfo → List V → Option (List (String × V))
  | [], [] => some []
  | [], _ :: _ => none
  | i :: is, args =>
    match i.default with
    | some e => (specNewInstance eval is args).map (fun r => (i.ident, eval e) :: r)
    | none =>
      match args with
      | [] => none
      | a :: rest => (specNewInstance eval is rest).map (fun r => (i.ident, a) :: r)

/-- Run the generated `Clone` impl: `Self { f: self.f.clone(), .. }`,
field-wise duplication in declaration order. -/
def cloneAssignsSem {V : Type} (cloneV : V → V) (inst : List (String × V)) :
    List (String × V) :=
  inst.map (fun p => (p.1, cloneV p.2))

/-- Run the generated `PartialEq` impl: the conjunction
`self.f1 == other.f1 && self.f2 == other.f2 && ...` over the fields in
declaration order. -/
def eqChecksSem {V : Type} (eqV : V → V → Bool) (x y : List (String × V)) : Bool :=
  (x.zip y).foldr (fun p acc => eqV p.1.2 p.2.2 && acc) true

/-- Run the generated `Default` impl: every field is assembled from its
default expression. -/
def runDefaultCtor {V : Type} (eval : List Char → V)
    (assigns : List (String × List Char)) : List (String × V) :=
  assigns.map (fun a => (a.1, eval a.2))

/-- Decidable infix test used to state that an error message does not
mention a given token. -/
def hasInfix (n : List Char) (h : List Char) : Bool :=
  n.isPrefixOf h ||
    match h with
    | [] => false
    | _ :: t => hasInfix n t

/-- `in_quotes` never flips and no splitting comma occurs while walking the
characters from the given quote state: every comma seen outside quotes makes
this false. -/
def noActiveComma : List Char → Bool → Bool
  | [], _ => true
  | c :: cs, inQ =>
    if c = '"' then noActiveComma cs (!inQ)
    else if c = ',' ∧ inQ = false then false
    else noActiveComma cs inQ

/-! ## Concrete inputs used by witnesses and counterexamples -/

/-- Stand-in for the external expression parser `syn::parse_str::<syn::Expr>`
at inputs on which parsing succeeds (every default expression appearing in
the concrete inputs below is a well-formed Rust expression). -/
def exprOk : List Char → Except String Unit := fun _ => .ok ()

/-- The `Person` struct of the crate's doc-test and `tests/basic.rs`. -/
def personFields : List Field :=
  [⟨"name", "String", []⟩,
   ⟨"age", "i32", []⟩,
   ⟨"nickname", "Option<String>", [⟨"dataclass", .list "default"⟩]⟩,
   ⟨"tags", "Vec<String>", [⟨"dataclass", .list "default = \"Vec::new()\""⟩]⟩]

def personInput : DeriveInput :=
  ⟨"Person", [], none, .structData (.named personFields)⟩

def personInfos : List FieldInfo :=
  [⟨"name", "String", none⟩,
   ⟨"age", "i32", none⟩,
   ⟨"nickname", "Option<String>", some bareDefaultExpr⟩,
   ⟨"tags", "Vec<String>", some (chars "Vec::new()")⟩]

/-- The `AllDefault` struct of `tests/basic.rs`: every field has a default. -/
def allDefaultInput : DeriveInput :=
  ⟨"AllDefault", [], none, .structData (.named
    [⟨"a", "i32", [⟨"dataclass", .list "default = \"1\""⟩]⟩,
     ⟨"b", "String", [⟨"dataclass", .list "default"⟩]⟩])⟩

def allDefaultInfos : List FieldInfo :=
  [⟨"a", "i32", some (chars "1")⟩, ⟨"b", "String", some bareDefaultExpr⟩]

/-- A struct whose defaulted field precedes a defaultless field, both
non-kw-only: the ordering scenario of claim C5. -/
def orderInput : DeriveInput :=
  ⟨"S", [], none, .structData (.named
    [⟨"a", "i32", [⟨"dataclass", .list "default = \"1\""⟩]⟩,
     ⟨"b", "i32", []⟩])⟩

def orderInfos : List FieldInfo :=
  [⟨"a", "i32", some (chars "1")⟩, ⟨"b", "i32", none⟩]

/-- A field carrying both `default` and `default_factory`: the scenario of
claim C6. -/
def conflictInput : DeriveInput :=
  ⟨"S", [], none, .structData (.named
    [⟨"x", "i32", [⟨"dataclass", .list "default, default_factory = \"f\""⟩]⟩])⟩

/-- A field carrying an unknown directive key: the scenario of claim C7. -/
def unknownKeyInput : DeriveInput :=
  ⟨"S", [], none, .structData (.named
    [⟨"x", "i32", [⟨"dataclass", .list "frobnicate"⟩]⟩])⟩

/-- The generic `Wrapper<T>` struct of `tests/basic.rs`. -/
def wrapperInput : DeriveInput :=
  ⟨"Wrapper", [.typeParam "T"], none, .structData (.named
    [⟨"value", "T", []⟩,
     ⟨"opt", "Option<T>", [⟨"dataclass", .list "default"⟩]⟩])⟩

def wrapperInfos : List FieldInfo :=
  [⟨"value", "T", none⟩, ⟨"opt", "Option<T>", some bareDefaultExpr⟩]

instance {ε α : Type} [DecidableEq ε] [DecidableEq α] : DecidableEq (Except ε α) := fun a b =>
  match a, b with
  | .ok x, .ok y => decidable_of_iff (x = y) ⟨fun h => h ▸ rfl, fun h => Except.ok.inj h⟩
  | .ok _, .error _ => .isFalse (fun h => Except.noConfusion h)
  | .error _, .ok _ => .isFalse (fun h => Except.noConfusion h)
  | .error x, .error y => decidable_of_iff (x = y) ⟨fun h => h ▸ rfl, fun h => Except.error.inj h⟩

/-! ## Helper lemmas -/

theorem newFold_eq (infos : List FieldInfo)
    (acc : List (String × String) × List (String × Option (List Char)) × Bool) :
    infos.foldl newStep acc =
      (acc.1 ++ (infos.filter (fun i => i.default.isNone)).map (fun i => (i.ident, i.ty)),
       acc.2.1 ++ infos.map (fun i => (i.ident, i.default)),
       acc.2.2 && infos.all (fun i => i.default.isSome)) := by
  induction infos generalizing acc with
  | nil => simp
  | cons i is ih =>
    cases hd : i.default with
    | none =>
      simp [List.foldl_cons, newStep, hd, ih, List.filter_cons, List.all_cons]
    | some e =>
      simp [List.foldl_cons, newStep, hd, ih, List.filter_cons, List.all_cons]

theorem buildGenerated_newParams (input : DeriveInput) (infos : List FieldInfo) :
    (buildGenerated input infos).newParams =
      (infos.filter (fun i => i.default.isNone)).map (fun i => (i.ident, i.ty)) := by
  simp [buildGenerated, newFold_eq]

theorem buildGenerated_constructFields (input : DeriveInput) (infos : List FieldInfo) :
    (buildGenerated input infos).constructFields =
      infos.map (fun i => (i.ident, i.default)) := by
  simp [buildGenerated, newFold_eq]

theorem buildGenerated_defaultAssigns (input : DeriveInput) (infos : List FieldInfo) :
    (buildGenerated input infos).defaultAssigns =
      (if infos.all (fun i => i.default.isSome)
        then some (infos.map (fun i => (i.ident, i.default.getD [])))
        else none) := by
  simp [buildGenerated, newFold_eq]

theorem impl_dataclass_ok (P : List Char → Except String Unit) (input : DeriveInput)
    (fs : List Field) (infos : List FieldInfo)
    (hshape : input.data = .structData (.named fs))
    (hok : collectInfos P fs = .ok infos) :
    impl_dataclass P input = .ok (buildGenerated input infos) := by
  simp [impl_dataclass, hshape, hok, Except.map]

theorem collectInfo_isOk (P : List Char → Except String Unit) (f : Field) :
    (collectInfo P f).isOk = (collectDefault P f).isOk := by
  cases h : collectDefault P f <;>
    simp [collectInfo, h, Except.map, Except.isOk, Except.toBool]

theorem collectInfos_isOk (P : List Char → Except String Unit) (fs : List Field) :
    (collectInfos P fs).isOk = true ↔ ∀ f ∈ fs, (collectDefault P f).isOk = true := by
  induction fs with
  | nil => simp [collectInfos, Except.isOk, Except.toBool]
  | cons f fs ih =>
    cases hd : collectDefault P f with
    | error e =>
      have hinfo : collectInfo P f = .error e := by simp [collectInfo, hd, Except.map]
      constructor
      · intro h
        rw [collectInfos, hinfo] at h
        exact absurd h (by simp [Except.isOk, Except.toBool, Except.bind, Bind.bind])
      · intro h
        have := h f (List.mem_cons_self f fs)
        rw [hd] at this
        exact absurd this (by simp [Except.isOk, Except.toBool])
    | ok d =>
      have hinfo : collectInfo P f = .ok ⟨f.ident, f.ty, d⟩ := by
        simp [collectInfo, hd, Except.map]
      have hstep : (collectInfos P (f :: fs)).isOk = (collectInfos P fs).isOk := by
        rw [collectInfos, hinfo]
        cases hrest : collectInfos P fs <;>
          simp [Except.bind, Bind.bind, hrest, Except.isOk, Except.toBool, pure, Except.pure]
      rw [hstep, ih]
      constructor
      · intro h g hg
        rcases List.mem_cons.mp hg with rfl | hgs
        · rw [hd]; simp [Except.isOk, Except.toBool]
        · exact h g hgs
      · intro h g hg
        exact h g (List.mem_cons_of_mem f hg)

theorem runNew_eq_spec {V : Type} (eval : List Char → V) (infos : List FieldInfo)
    (args : List V) :
    runNew eval (infos.map (fun i => (i.ident, i.default))) args =
      specNewInstance eval infos args := by
  induction infos generalizing args with
  | nil => cases args <;> simp [runNew, specNewInstance]
  | cons i is ih =>
    cases hd : i.default with
    | some e => simp [runNew, specNewInstance, hd, ih]
    | none =>
      cases args with
      | nil => simp [runNew, specNewInstance, hd]
      | cons a rest => simp [runNew, specNewInstance, hd, ih]

theorem processParts_append (P : List Char → Except String Unit) (fld : String)
    (cur : Option (List Char)) (xs ys : List (List Char)) :
    processParts P fld cur (xs ++ ys) =
      (processParts P fld cur xs).bind (fun c => processParts P fld c ys) := by
  induction xs generalizing cur with
  | nil =>
    simp [processParts, List.foldlM_nil, Except.bind, Bind.bind, pure, Except.pure]
  | cons x xs ih =>
    simp only [processParts, List.cons_append, List.foldlM_cons]
    cases h : applyPart P fld cur x <;>
      simp [h, Except.bind, Bind.bind, ih, processParts]

theorem eqChecksSem_eq_all {V : Type} (eqV : V → V → Bool) (x y : List (String × V)) :
    eqChecksSem eqV x y = (x.zip y).all (fun p => eqV p.1.2 p.2.2) := by
  unfold eqChecksSem
  generalize x.zip y = l
  induction l with
  | nil => rfl
  | cons p l ih => simp [List.foldr_cons, List.all_cons, ih]

theorem eqChecks_clone {V : Type} (eqV : V → V → Bool) (cloneV : V → V)
    (h : ∀ v, eqV v (cloneV v) = true) (inst : List (String × V)) :
    eqChecksSem eqV inst (cloneAssignsSem cloneV inst) = true := by
  induction inst with
  | nil => rfl
  | cons p l ih =>
    simp only [eqChecksSem, cloneAssignsSem, List.map_cons, List.zip_cons_cons,
      List.foldr_cons] at *
    simp [h p.2, ih]

theorem splitRaw_noActive : ∀ (cs : List Char) (inQ : Bool) (cur : List Char),
    noActiveComma cs inQ = true →
    splitRaw cs inQ cur = if cur ++ cs = [] then [] else [trimChars (cur ++ cs)] := by
  intro cs
  induction cs with
  | nil => intro inQ cur _; simp [splitRaw]
  | cons c cs ih =>
    intro inQ cur h
    by_cases hq : c = '"'
    · subst hq
      rw [noActiveComma, if_pos rfl] at h
      rw [splitRaw, if_pos rfl, ih (!inQ) (cur ++ ['"']) h]
      simp
    · by_cases hcomma : c = ',' ∧ inQ = false
      · exfalso
        rw [noActiveComma, if_neg hq, if_pos hcomma] at h
        exact Bool.false_ne_true h
      · rw [noActiveComma, if_neg hq, if_neg hcomma] at h
        rw [splitRaw, if_neg hq, if_neg hcomma, ih inQ (cur ++ [c]) h]
        simp

theorem applyPart_unknown (P : List Char → Except String Unit) (fld : String)
    (cur : Option (List Char)) (part : List Char)
    (h1 : part ≠ chars "default")
    (h2 : (chars "default=").isPrefixOf part = false)
    (h3 : (chars "default =").isPrefixOf part = false) :
    applyPart P fld cur part = .error ⟨fld, "unknown dataclass attribute"⟩ := by
  unfold applyPart
  rw [if_neg h1]
  simp [h2, h3]

theorem applyPart_factory (P : List Char → Except String Unit) (fld : String)
    (cur : Option (List Char)) (part : List Char)
    (hpre : (chars "default_factory").isPrefixOf part = true) :
    applyPart P fld cur part = .error ⟨fld, "unknown dataclass attribute"⟩ := by
  have hpre' : chars "default_factory" <+: part := List.isPrefixOf_iff_prefix.mp hpre
  refine applyPart_unknown P fld cur part ?_ ?_ ?_
  · intro hEq
    rw [hEq] at hpre
    exact absurd hpre (by decide)
  · cases hb : (chars "default=").isPrefixOf part with
    | false => rfl
    | true =>
      have hb' : chars "default=" <+: part := List.isPrefixOf_iff_prefix.mp hb
      rcases List.prefix_or_prefix_of_prefix hb' hpre' with h | h
      · exact absurd h (by decide)
      · exact absurd h (by decide)
  · cases hb : (chars "default =").isPrefixOf part with
    | false => rfl
    | true =>
      have hb' : chars "default =" <+: part := List.isPrefixOf_iff_prefix.mp hb
      rcases List.prefix_or_prefix_of_prefix hb' hpre' with h | h
      · exact absurd h (by decide)
      · exact absurd h (by decide)

theorem applyPart_span_shape (P : List Char → Except String Unit) (fld : String)
    (cur : Option (List Char)) (part : List Char) :
    (∃ r, applyPart P fld cur part = .ok r) ∨
      ∃ m, applyPart P fld cur part = .error ⟨fld, m⟩ := by
  unfold applyPart
  split
  · exact .inl ⟨_, rfl⟩
  · split
    · split
      · dsimp only
        split
        · exact .inl ⟨_, rfl⟩
        · exact .inr ⟨_, rfl⟩
      · exact .inl ⟨_, rfl⟩
    · exact .inr ⟨_, rfl⟩

theorem applyPart_error_span (P : List Char → Except String Unit) (fld : String)
    (cur : Option (List Char)) (part : List Char) (e : SynErr)
    (h : applyPart P fld cur part = .error e) : e.span = fld := by
  rcases applyPart_span_shape P fld cur part with ⟨r, hr⟩ | ⟨m, hm⟩
  · rw [hr] at h
    exact Except.noConfusion h
  · rw [hm] at h
    injection h with h2
    subst h2
    rfl

theorem processParts_error_span (P : List Char → Except String Unit) (fld : String) :
    ∀ (parts : List (List Char)) (cur : Option (List Char)) (e : SynErr),
      processParts P fld cur parts = .error e → e.span = fld := by
  intro parts
  induction parts with
  | nil => intro cur e h; exact Except.noConfusion h
  | cons p ps ih =>
    intro cur e h
    rw [processParts, List.foldlM_cons] at h
    cases hap : applyPart P fld cur p with
    | error e' =>
      rw [hap] at h
      have h2 : (Except.error e' : Except SynErr (Option (List Char))) = .error e := h
      injection h2 with h3
      rw [← h3]
      exact applyPart_error_span P fld cur p e' hap
    | ok c' =>
      rw [hap] at h
      exact ih c' e h

theorem applyAttr_error_span (P : List Char → Except String Unit) (fld : String)
    (cur : Option (List Char)) (a : Attr) (e : SynErr)
    (h : applyAttr P fld cur a = .error e) : e.span = fld := by
  unfold applyAttr at h
  split at h
  · split at h
    · exact processParts_error_span P fld _ _ e h
    · exact Except.noConfusion h
  · exact Except.noConfusion h

theorem foldAttrs_error_span (P : List Char → Except String Unit) (fld : String) :
    ∀ (attrs : List Attr) (cur : Option (List Char)) (e : SynErr),
      attrs.foldlM (applyAttr P fld) cur = .error e → e.span = fld := by
  intro attrs
  induction attrs with
  | nil => intro cur e h; exact Except.noConfusion h
  | cons b bs ih =>
    intro cur e h
    rw [List.foldlM_cons] at h
    cases hab : applyAttr P fld cur b with
    | error e' =>
      rw [hab] at h
      have h2 : (Except.error e' : Except SynErr (Option (List Char))) = .error e := h
      injection h2 with h3
      rw [← h3]
      exact applyAttr_error_span P fld cur b e' hab
    | ok c' =>
      rw [hab] at h
      exact ih c' e h

theorem collectDefault_error_span (P : List Char → Except String Unit) (f : Field)
    (e : SynErr) (h : collectDefault P f = .error e) : e.span = f.ident :=
  foldAttrs_error_span P f.ident f.attrs none e h

theorem processParts_poison (P : List Char → Except String Unit) (fld : String) :
    ∀ (parts : List (List Char)) (cur : Option (List Char)) (part : List Char),
      part ∈ parts → (∀ c, (applyPart P fld c part).isOk = false) →
      (processParts P fld cur parts).isOk = false := by
  intro parts
  induction parts with
  | nil => intro cur part hmem _; exact absurd hmem (List.not_mem_nil part)
  | cons p ps ih =>
    intro cur part hmem hpoison
    rw [processParts, List.foldlM_cons]
    cases hap : applyPart P fld cur p with
    | error e' => rfl
    | ok c' =>
      rcases List.mem_cons.mp hmem with rfl | hmem'
      · have hc := hpoison cur
        rw [hap] at hc
        exact absurd hc (by simp [Except.isOk, Except.toBool])
      · exact ih c' part hmem' hpoison

theorem foldAttrs_poison (P : List Char → Except String Unit) (fld : String) :
    ∀ (attrs : List Attr) (cur : Option (List Char)) (a : Attr) (toks : String)
      (part : List Char),
      a ∈ attrs → a.path = "dataclass" → a.meta = .list toks →
      part ∈ partsOfTokens toks →
      (∀ c, (applyPart P fld c part).isOk = false) →
      (attrs.foldlM (applyAttr P fld) cur).isOk = false := by
  intro attrs
  induction attrs with
  | nil => intro cur a toks part hmem _ _ _ _; exact absurd hmem (List.not_mem_nil a)
  | cons b bs ih =>
    intro cur a toks part hmem hpath hmeta hpmem hpoison
    rw [List.foldlM_cons]
    cases hab : applyAttr P fld cur b with
    | error e' => rfl
    | ok c' =>
      rcases List.mem_cons.mp hmem with rfl | hmem'
      · exfalso
        have hfail : (applyAttr P fld cur a).isOk = false := by
          unfold applyAttr
          rw [if_pos hpath, hmeta]
          exact processParts_poison P fld (partsOfTokens toks) cur part hpmem hpoison
        rw [hab] at hfail
        exact absurd hfail (by simp [Except.isOk, Except.toBool])
      · exact ih c' a toks part hmem' hpath hmeta hpmem hpoison

theorem collectDefault_poison (P : List Char → Except String Unit) (f : Field)
    (a : Attr) (toks : String) (part : List Char)
    (hmem : a ∈ f.attrs) (hpath : a.path = "dataclass") (hmeta : a.meta = .list toks)
    (hpmem : part ∈ partsOfTokens toks)
    (hpoison : ∀ c, (applyPart P f.ident c part).isOk = false) :
    (collectDefault P f).isOk = false :=
  foldAttrs_poison P f.ident f.attrs none a toks part hmem hpath hmeta hpmem hpoison

/-! ## Claims -/

/-- Claim C1: for every struct accepted by the generator, the synthesized
constructor takes exactly one positional parameter per field lacking a
default, in declaration order; every field with a default is initialized in
the body from its default expression; and running the constructor on any
supplied argument values yields an instance whose defaultless fields equal
the supplied values and whose defaulted fields equal their evaluated default
expression. -/
theorem C1_constructor {V : Type} (P : List Char → Except String Unit)
    (input : DeriveInput) (fs : List Field) (infos : List FieldInfo)
    (eval : List Char → V)
    (hshape : input.data = .structData (.named fs))
    (hok : collectInfos P fs = .ok infos) :
    impl_dataclass P input = .ok (buildGenerated input infos) ∧
    (buildGenerated input infos).newParams =
      (infos.filter (fun i => i.default.isNone)).map (fun i => (i.ident, i.ty)) ∧
    (buildGenerated input infos).constructFields =
      infos.map (fun i => (i.ident, i.default)) ∧
    ∀ args : List V,
      runNew eval (buildGenerated input infos).constructFields args =
        specNewInstance eval infos args := by
  refine ⟨impl_dataclass_ok P input fs infos hshape hok,
    buildGenerated_newParams input infos,
    buildGenerated_constructFields input infos, ?_⟩
  intro args
  rw [buildGenerated_constructFields]
  exact runNew_eq_spec eval infos args

theorem C1_witness :
    impl_dataclass exprOk personInput = .ok (buildGenerated personInput personInfos) ∧
    runNew (fun e => e.length) (buildGenerated personInput personInfos).constructFields
        [5, 7] =
      specNewInstance (fun e => e.length) personInfos [5, 7] := by
  have h := C1_constructor (V := Nat) exprOk personInput personFields personInfos
    (fun e => e.length) rfl (by decide)
  exact ⟨h.1, h.2.2.2 [5, 7]⟩

/-- Claim C2: for every accepted struct, the `Default` impl is emitted if and
only if every field has a default; when emitted, it assembles each field from
that field's default expression. -/
theorem C2_default_ctor (P : List Char → Except String Unit)
    (input : DeriveInput) (fs : List Field) (infos : List FieldInfo)
    (hshape : input.data = .structData (.named fs))
    (hok : collectInfos P fs = .ok infos) :
    impl_dataclass P input = .ok (buildGenerated input infos) ∧
    ((buildGenerated input infos).defaultAssigns.isSome = true ↔
      ∀ i ∈ infos, i.default.isSome = true) ∧
    ∀ assigns, (buildGenerated input infos).defaultAssigns = some assigns →
      assigns = infos.map (fun i => (i.ident, i.default.getD [])) ∧
      ∀ i ∈ infos, i.default.isSome = true := by
  refine ⟨impl_dataclass_ok P input fs infos hshape hok, ?_, ?_⟩
  · rw [buildGenerated_defaultAssigns]
    by_cases h : infos.all (fun i => i.default.isSome) = true
    · rw [if_pos h]
      rw [List.all_eq_true] at h
      simpa using h
    · rw [if_neg h]
      rw [List.all_eq_true] at h
      simp [h]
  · intro assigns hassigns
    rw [buildGenerated_defaultAssigns] at hassigns
    by_cases h : infos.all (fun i => i.default.isSome) = true
    · rw [if_pos h] at hassigns
      refine ⟨(Option.some.inj hassigns).symm, ?_⟩
      rw [List.all_eq_true] at h
      exact h
    · rw [if_neg h] at hassigns
      exact absurd hassigns (by simp)

theorem C2_witness :
    impl_dataclass exprOk allDefaultInput =
      .ok (buildGenerated allDefaultInput allDefaultInfos) ∧
    (buildGenerated allDefaultInput allDefaultInfos).defaultAssigns.isSome = true := by
  have h := C2_default_ctor exprOk allDefaultInput _ allDefaultInfos rfl (by decide)
  exact ⟨h.1, h.2.1.mpr (by decide)⟩

/-- Claim C3: the splitter tracks quote state character by character and
splits only on commas outside double quotes; a directive list with no comma
outside quotes stays one (trimmed) part, a comma outside quotes does split,
and a field annotated with a quoted default expression containing a comma
yields exactly one directive, `default`, whose collected value is the
expression `makeList(1, 2)`. -/
theorem C3_quote_aware_split :
    (∀ (cs : List Char) (inQ : Bool) (cur : List Char),
      noActiveComma cs inQ = true →
      splitRaw cs inQ cur = if cur ++ cs = [] then [] else [trimChars (cur ++ cs)]) ∧
    splitDirectives (chars "default = \"makeList(1, 2)\"") =
      [chars "default = \"makeList(1, 2)\""] ∧
    splitDirectives (chars "a, b") = [chars "a", chars "b"] ∧
    ∀ (P : List Char → Except String Unit) (fld ty : String),
      P (chars "makeList(1, 2)") = .ok () →
      collectDefault P ⟨fld, ty, [⟨"dataclass", .list "default = \"makeList(1, 2)\""⟩]⟩ =
        .ok (some (chars "makeList(1, 2)")) := by
  refine ⟨splitRaw_noActive, by decide, by decide, ?_⟩
  intro P fld ty h
  have hpart : applyPart P fld none (chars "default = \"makeList(1, 2)\"") =
      .ok (some (chars "makeList(1, 2)")) := by
    have hm : applyPart P fld none (chars "default = \"makeList(1, 2)\"") =
        (match P (chars "makeList(1, 2)") with
          | .ok _ => .ok (some (chars "makeList(1, 2)"))
          | .error e => .error ⟨fld, "invalid default expression: " ++ e⟩) := rfl
    rw [hm, h]
  have hp : partsOfTokens "default = \"makeList(1, 2)\"" =
      [chars "default = \"makeList(1, 2)\""] := by decide
  simp [collectDefault, applyAttr, hp, processParts, List.foldlM_cons,
    List.foldlM_nil, hpart, Except.bind, Bind.bind, pure, Except.pure]

theorem C3_witness :
    splitRaw (chars "ab") false [] =
      (if ([] : List Char) ++ chars "ab" = [] then []
        else [trimChars ([] ++ chars "ab")]) ∧
    collectDefault exprOk
        ⟨"f", "T", [⟨"dataclass", .list "default = \"makeList(1, 2)\""⟩]⟩ =
      .ok (some (chars "makeList(1, 2)")) := by
  exact ⟨C3_quote_aware_split.1 (chars "ab") false [] (by decide),
    C3_quote_aware_split.2.2.2 exprOk "f" "T" rfl⟩

/-- Claim C4: the synthesized clone performs field-wise duplication and the
synthesized equality is the conjunction of per-field equality checks in
declaration order (over the single shared field-identifier list), so when
the field values' clone preserves equality, `equal(x, clone(x))` holds for
every instance `x`. -/
theorem C4_clone_eq {V : Type} (eqV : V → V → Bool) (cloneV : V → V)
    (h : ∀ v, eqV v (cloneV v) = true) :
    (∀ inst : List (String × V),
      eqChecksSem eqV inst (cloneAssignsSem cloneV inst) = true) ∧
    (∀ x y : List (String × V),
      eqChecksSem eqV x y = (x.zip y).all (fun p => eqV p.1.2 p.2.2)) ∧
    ∀ (input : DeriveInput) (infos : List FieldInfo),
      (buildGenerated input infos).fieldIdents = infos.map (fun i => i.ident) := by
  exact ⟨eqChecks_clone eqV cloneV h, eqChecksSem_eq_all eqV,
    fun input infos => rfl⟩

theorem C4_witness :
    eqChecksSem (fun a b : Nat => a == b) [("a", 3)]
      (cloneAssignsSem (fun v => v) [("a", 3)]) = true := by
  exact (C4_clone_eq (fun a b : Nat => a == b) (fun v => v) (fun v => by simp)).1
    [("a", 3)]

/-- Claim C5 counterexample: a struct whose defaulted field `a` precedes the
defaultless field `b`, both non-kw-only, is accepted — generation succeeds
and the constructor takes only `b` — rather than being rejected with a
validation error. -/
theorem C5_counterexample :
    impl_dataclass exprOk orderInput = .ok (buildGenerated orderInput orderInfos) ∧
    (buildGenerated orderInput orderInfos).newParams = [("b", "i32")] := by
  exact ⟨by decide, by decide⟩

/-- Claim C5 (amended): no field-ordering validation exists; whenever
directive parsing succeeds, generation succeeds regardless of where the
defaulted fields sit, and the constructor takes exactly the defaultless
fields, in declaration order, as positional parameters (defaulted fields are
never positional parameters, so no ordering constraint is enforced). -/
theorem C5_no_ordering_check (P : List Char → Except String Unit)
    (input : DeriveInput) (fs : List Field) (infos : List FieldInfo)
    (hshape : input.data = .structData (.named fs))
    (hok : collectInfos P fs = .ok infos) :
    impl_dataclass P input = .ok (buildGenerated input infos) ∧
    (buildGenerated input infos).newParams =
      (infos.filter (fun i => i.default.isNone)).map (fun i => (i.ident, i.ty)) := by
  exact ⟨impl_dataclass_ok P input fs infos hshape hok,
    buildGenerated_newParams input infos⟩

theorem C5_witness :
    impl_dataclass exprOk orderInput = .ok (buildGenerated orderInput orderInfos) := by
  exact (C5_no_ordering_check exprOk orderInput _ orderInfos rfl (by decide)).1

/-- Claim C6 counterexample: a field annotated with both `default` and
`default_factory` fails with the parse error `unknown dataclass attribute`
(whose message does not mention a conflict), not with a validation error
reporting conflicting default providers. -/
theorem C6_counterexample :
    impl_dataclass exprOk conflictInput = .error ⟨"x", "unknown dataclass attribute"⟩ ∧
    hasInfix (chars "conflict") (chars "unknown dataclass attribute") = false := by
  exact ⟨by decide, by decide⟩

/-- Claim C6 (amended): for every field annotated with both `default` and
`default_factory` — in any order, with any factory name, in one or several
attributes — processing fails, because `default_factory` is not a recognized
directive: every directive part beginning with `default_factory` yields the
parse error `unknown dataclass attribute` at the field's span, regardless of
the expression parser and of previously collected state, and the directive
collection for any field containing such a part in a `#[dataclass(...)]`
attribute can never succeed; no conflicting-default-providers check exists. -/
theorem C6_unknown_factory :
    (∀ (P : List Char → Except String Unit) (fld : String)
      (cur : Option (List Char)) (part : List Char),
      (chars "default_factory").isPrefixOf part = true →
      applyPart P fld cur part = .error ⟨fld, "unknown dataclass attribute"⟩) ∧
    (∀ (P : List Char → Except String Unit) (f : Field) (a : Attr)
      (toks : String) (part : List Char),
      a ∈ f.attrs → a.path = "dataclass" → a.meta = .list toks →
      part ∈ partsOfTokens toks →
      (chars "default_factory").isPrefixOf part = true →
      (collectDefault P f).isOk = false) ∧
    ∀ (P : List Char → Except String Unit) (fld ty : String),
      collectDefault P ⟨fld, ty,
          [⟨"dataclass", .list "default, default_factory = \"f\""⟩]⟩ =
        .error ⟨fld, "unknown dataclass attribute"⟩ := by
  refine ⟨applyPart_factory, ?_, fun P fld ty => rfl⟩
  intro P f a toks part hmem hpath hmeta hpmem hpre
  refine collectDefault_poison P f a toks part hmem hpath hmeta hpmem ?_
  intro c
  rw [applyPart_factory P f.ident c part hpre]
  rfl

theorem C6_witness :
    applyPart exprOk "x" none (chars "default_factory = \"f\"") =
      .error ⟨"x", "unknown dataclass attribute"⟩ ∧
    (collectDefault exprOk ⟨"x", "i32",
        [⟨"dataclass", .list "default, default_factory = \"f\""⟩]⟩).isOk = false := by
  exact ⟨C6_unknown_factory.1 exprOk "x" none (chars "default_factory = \"f\"")
      (by decide),
    C6_unknown_factory.2.1 exprOk
      ⟨"x", "i32", [⟨"dataclass", .list "default, default_factory = \"f\""⟩]⟩
      ⟨"dataclass", .list "default, default_factory = \"f\""⟩
      "default, default_factory = \"f\"" (chars "default_factory = \"f\"")
      (by decide) rfl rfl (by decide) (by decide)⟩

/-- Claim C7 counterexample: an unknown directive key (`frobnicate`) fails
with an error whose span is the offending field but whose message is the
fixed string `unknown dataclass attribute`, which does not name the unknown
key. -/
theorem C7_counterexample :
    impl_dataclass exprOk unknownKeyInput =
      .error ⟨"x", "unknown dataclass attribute"⟩ ∧
    hasInfix (chars "frobnicate") (chars "unknown dataclass attribute") = false := by
  exact ⟨by decide, by decide⟩

/-- Claim C7 (amended): for every field whose dataclass attribute list
contains a directive key outside the recognized vocabulary — any part that is
neither `default` nor prefixed by `default=`/`default =` — processing fails
with a parse error located at the offending field's span: such a part always
yields exactly `unknown dataclass attribute`, the same fixed message for
every key (so the key is never named in it), once it is reached the whole
directive list errors with that message, and every error a field's directive
processing can produce carries that field's span. -/
theorem C7_unknown_key_error :
    (∀ (P : List Char → Except String Unit) (fld : String)
      (cur : Option (List Char)) (part : List Char),
      part ≠ chars "default" →
      (chars "default=").isPrefixOf part = false →
      (chars "default =").isPrefixOf part = false →
      applyPart P fld cur part = .error ⟨fld, "unknown dataclass attribute"⟩) ∧
    (∀ (P : List Char → Except String Unit) (f : Field) (e : SynErr),
      collectDefault P f = .error e → e.span = f.ident) ∧
    (∀ (P : List Char → Except String Unit) (fld : String)
      (cur cur₁ : Option (List Char)) (parts₁ : List (List Char))
      (part : List Char) (parts₂ : List (List Char)),
      processParts P fld cur parts₁ = .ok cur₁ →
      part ≠ chars "default" →
      (chars "default=").isPrefixOf part = false →
      (chars "default =").isPrefixOf part = false →
      processParts P fld cur (parts₁ ++ part :: parts₂) =
        .error ⟨fld, "unknown dataclass attribute"⟩) ∧
    ∀ (P : List Char → Except String Unit) (name fld ty : String),
      impl_dataclass P ⟨name, [], none, .structData (.named
          [⟨fld, ty, [⟨"dataclass", .list "frobnicate"⟩]⟩])⟩ =
        .error ⟨fld, "unknown dataclass attribute"⟩ := by
  refine ⟨applyPart_unknown, collectDefault_error_span, ?_,
    fun P name fld ty => rfl⟩
  intro P fld cur cur₁ parts₁ part parts₂ hok h1 h2 h3
  rw [processParts_append, hok]
  show processParts P fld cur₁ (part :: parts₂) = _
  rw [processParts, List.foldlM_cons, applyPart_unknown P fld cur₁ part h1 h2 h3]
  rfl

theorem C7_witness :
    applyPart exprOk "x" none (chars "frobnicate") =
      .error ⟨"x", "unknown dataclass attribute"⟩ ∧
    processParts exprOk "x" none ([chars "default"] ++ chars "frobnicate" :: []) =
      .error ⟨"x", "unknown dataclass attribute"⟩ := by
  exact ⟨C7_unknown_key_error.1 exprOk "x" none (chars "frobnicate")
      (by decide) (by decide) (by decide),
    C7_unknown_key_error.2.2.1 exprOk "x" none (some bareDefaultExpr)
      [chars "default"] (chars "frobnicate") [] rfl
      (by decide) (by decide) (by decide)⟩

/-- Claim C8: generation is all-or-nothing per type: the generator succeeds
exactly when the input is a struct with named fields and every field's
directive list parses, so any failing check (unsupported shape, unknown
directive, malformed default expression) yields only an error value and no
generated definitions; and field collection succeeds exactly when every
individual field's directives parse. -/
theorem C8_all_or_nothing (P : List Char → Except String Unit)
    (input : DeriveInput) :
    ((impl_dataclass P input).isOk = true ↔
      ∃ fs, input.data = .structData (.named fs) ∧ (collectInfos P fs).isOk = true) ∧
    ∀ fs : List Field,
      (collectInfos P fs).isOk = true ↔ ∀ f ∈ fs, (collectDefault P f).isOk = true := by
  refine ⟨?_, collectInfos_isOk P⟩
  cases hd : input.data with
  | structData sf =>
    cases sf with
    | named fs =>
      cases hc : collectInfos P fs with
      | error e =>
        simp [impl_dataclass, hd, Except.map, Except.isOk, Except.toBool, hc]
      | ok infos =>
        simp [impl_dataclass, hd, Except.map, Except.isOk, Except.toBool, hc]
    | unnamed => simp [impl_dataclass, hd, Except.isOk, Except.toBool]
    | unit => simp [impl_dataclass, hd, Except.isOk, Except.toBool]
  | enumData => simp [impl_dataclass, hd, Except.isOk, Except.toBool]
  | unionData => simp [impl_dataclass, hd, Except.isOk, Except.toBool]

theorem C8_witness : (impl_dataclass exprOk personInput).isOk = true := by
  exact (C8_all_or_nothing exprOk personInput).1.mpr ⟨personFields, rfl, by decide⟩

/-- Claim C9 counterexample: for the generic `Wrapper<T>` input, the
generated constructor impl's where-clause differs from the `Clone` impl's
where-clause — the bound set is not used identically by every emitted
operation. -/
theorem C9_counterexample :
    impl_dataclass exprOk wrapperInput = .ok (buildGenerated wrapperInput wrapperInfos) ∧
    (buildGenerated wrapperInput wrapperInfos).newBounds ≠
      (buildGenerated wrapperInput wrapperInfos).cloneBounds := by
  exact ⟨by decide, by decide⟩

/-- Claim C9 (amended): the capability bound set is resolved once and shared
identically by the `Clone`, `Debug`, `PartialEq`, `Eq` and `Default` impls —
when the type has any type parameters it bounds every type parameter by
`Clone + Debug + PartialEq + Eq + Default`, replacing the input's own
where-clause, and otherwise it is the input's where-clause — but the
constructor impl instead retains the input's original where-clause. -/
theorem C9_bounds_shared (P : List Char → Except String Unit)
    (input : DeriveInput) (fs : List Field) (infos : List FieldInfo)
    (hshape : input.data = .structData (.named fs))
    (hok : collectInfos P fs = .ok infos) :
    impl_dataclass P input = .ok (buildGenerated input infos) ∧
    ((buildGenerated input infos).cloneBounds = (buildGenerated input infos).debugBounds ∧
      (buildGenerated input infos).debugBounds = (buildGenerated input infos).peqBounds ∧
      (buildGenerated input infos).peqBounds = (buildGenerated input infos).eqBounds ∧
      (buildGenerated input infos).eqBounds = (buildGenerated input infos).defaultBounds) ∧
    (buildGenerated input infos).newBounds = .fromWhere input.whereClause ∧
    (typeIdentsOf input ≠ [] →
      (buildGenerated input infos).cloneBounds = .capabilities (typeIdentsOf input)) ∧
    (typeIdentsOf input = [] →
      (buildGenerated input infos).cloneBounds = .fromWhere input.whereClause) := by
  refine ⟨impl_dataclass_ok P input fs infos hshape hok,
    ⟨rfl, rfl, rfl, rfl⟩, rfl, ?_, ?_⟩
  · intro h; simp [buildGenerated, h]
  · intro h; simp [buildGenerated, h]

theorem C9_witness :
    (buildGenerated wrapperInput wrapperInfos).cloneBounds =
      Bounds.capabilities (typeIdentsOf wrapperInput) := by
  exact (C9_bounds_shared exprOk wrapperInput _ wrapperInfos rfl
    (by decide)).2.2.2.1 (by decide)

/-- Claim C10: duplicate default directives raise no error; the default
directive occurring last in left-to-right order (also across several
`#[dataclass(...)]` attributes) silently determines the field's default
expression. -/
theorem C10_last_default_wins :
    (∀ (P : List Char → Except String Unit) (fld : String)
      (cur cur₂ : Option (List Char)) (parts : List (List Char))
      (part v : List Char),
      (∀ c, applyPart P fld c part = .ok (some v)) →
      processParts P fld cur parts = .ok cur₂ →
      processParts P fld cur (parts ++ [part]) = .ok (some v)) ∧
    (∀ (P : List Char → Except String Unit) (fld : String)
      (c : Option (List Char)),
      applyPart P fld c (chars "default") = .ok (some bareDefaultExpr)) ∧
    ∀ (P : List Char → Except String Unit) (fld ty : String),
      P (chars "2") = .ok () →
      collectDefault P ⟨fld, ty, [⟨"dataclass", .list "default"⟩,
          ⟨"dataclass", .list "default = \"2\""⟩]⟩ = .ok (some (chars "2")) := by
  refine ⟨?_, fun P fld c => rfl, ?_⟩
  · intro P fld cur cur₂ parts part v hpart hparts
    rw [processParts_append, hparts]
    have hv := hpart cur₂
    simp [processParts, List.foldlM_cons, List.foldlM_nil, hv, Except.bind,
      Bind.bind, pure, Except.pure]
  · intro P fld ty h
    have h2 : applyPart P fld (some bareDefaultExpr) (chars "default = \"2\"") =
        (match P (chars "2") with
          | .ok _ => .ok (some (chars "2"))
          | .error e => .error ⟨fld, "invalid default expression: " ++ e⟩) := rfl
    rw [h] at h2
    have hp : partsOfTokens "default = \"2\"" = [chars "default = \"2\""] := by decide
    have hp0 : partsOfTokens "default" = [chars "default"] := by decide
    have h0 : applyPart P fld none (chars "default") = .ok (some bareDefaultExpr) := rfl
    simp [collectDefault, List.foldlM_cons, List.foldlM_nil, applyAttr, hp, hp0,
      processParts, h0, h2, Except.bind, Bind.bind, pure, Except.pure]

theorem C10_witness :
    processParts exprOk "f" none ([chars "default"] ++ [chars "default"]) =
      .ok (some bareDefaultExpr) ∧
    collectDefault exprOk ⟨"f", "T", [⟨"dataclass", .list "default"⟩,
        ⟨"dataclass", .list "default = \"2\""⟩]⟩ = .ok (some (chars "2")) := by
  exact ⟨C10_last_default_wins.1 exprOk "f" none (some bareDefaultExpr)
      [chars "default"] (chars "default") bareDefaultExpr (fun c => rfl) rfl,
    C10_last_default_wins.2.2 exprOk "f" "T" rfl⟩

end Dataclasses
